import Mathlib

/-!
Verification of the transcript-to-structured-notes pipeline of the
video_note_agent repository: a shallow embedding of the deterministic
formatting and extraction logic in `tools/subtitle_generator.py`,
`tools/note_generator.py` and `main.py`, followed by theorems settling
the specification claims.

Python floats are modelled as rationals (`ℚ`); all arithmetic performed
by the timecode formatter is exact on the inputs considered.  Python
strings are modelled as Lean `String` / `List Char`; the model covers the
ASCII whitespace characters stripped by `str.strip()`.
-/

namespace VideoNotes

/-! ## Python string and arithmetic primitives -/

/-- The ASCII whitespace characters removed by Python `str.strip()`. -/
def pyIsSpace (c : Char) : Bool :=
  c = ' ' || c = '\t' || c = '\n' || c = '\r' || c = '\x0b' || c = '\x0c'

/-- Python `str.strip()` on a character list: drop whitespace from both ends. -/
def stripChars (cs : List Char) : List Char :=
  ((cs.dropWhile pyIsSpace).reverse.dropWhile pyIsSpace).reverse

/-- Python `str.strip()`. -/
def pyStrip (s : String) : String :=
  String.mk (stripChars s.data)

/-- Python `str.split(sep)` for a single-character separator: no collapsing of
adjacent separators, and the empty string splits to one empty field. -/
def pySplit (sep : Char) : List Char → List (List Char)
  | [] => [[]]
  | c :: cs =>
    if c = sep then [] :: pySplit sep cs
    else
      match pySplit sep cs with
      | [] => [[c]]
      | l :: ls => (c :: l) :: ls

/-- Python `format(n, "0wd")` for a natural number: zero-pad the decimal
representation to a minimum width `w`. -/
def padNat (w : Nat) (n : Nat) : String :=
  let s := Nat.repr n
  if s.length < w then String.mk (List.replicate (w - s.length) '0') ++ s else s

/-- Python `f"{n:0wd}"` for an integer: the minimum width `w` counts the sign,
and zeros are inserted after the sign. -/
def padInt (w : Nat) (n : Int) : String :=
  if n < 0 then "-" ++ padNat (w - 1) n.natAbs else padNat w n.toNat

/-- Python `int(x)`: truncation toward zero. -/
def pyInt (q : ℚ) : ℤ :=
  if q < 0 then -Rat.floor (-q) else Rat.floor q

/-- Python `a // b` on floats: floor division (the result is an integral value,
kept in `ℚ` as in Python it stays a float). -/
def pyFloorDiv (a b : ℚ) : ℚ :=
  ((a / b).floor : ℚ)

/-- Python `a % b` on floats for `b > 0`: `a - b * (a // b)`, always in `[0, b)`. -/
def pyMod (a b : ℚ) : ℚ :=
  a - b * pyFloorDiv a b

/-! ## Data model (`_process_transcription_result` output shape) -/

/-- One recognized speech span of a transcription result. -/
structure Segment where
  start : ℚ
  «end» : ℚ
  text : String
  confidence : ℚ

/-- The full transcription result for one audio input. -/
structure Transcription where
  full_text : String
  segments : List Segment
  language : String
  duration : ℚ

/-! ## Timecode formatter (`_format_time`, `_format_time_vtt`) -/

/-- `int(seconds // 3600)`. -/
def tc_hours (seconds : ℚ) : ℤ := pyInt (pyFloorDiv seconds 3600)

/-- `int((seconds % 3600) // 60)`. -/
def tc_minutes (seconds : ℚ) : ℤ := pyInt (pyFloorDiv (pyMod seconds 3600) 60)

/-- `int(seconds % 60)`. -/
def tc_secs (seconds : ℚ) : ℤ := pyInt (pyMod seconds 60)

/-- `int((seconds % 1) * 1000)`. -/
def tc_millis (seconds : ℚ) : ℤ := pyInt (pyMod seconds 1 * 1000)

/-- `_format_time`: SRT-style timecode `HH:MM:SS,mmm`. -/
def _format_time (seconds : ℚ) : String :=
  padInt 2 (tc_hours seconds) ++ ":" ++ padInt 2 (tc_minutes seconds) ++ ":" ++
    padInt 2 (tc_secs seconds) ++ "," ++ padInt 3 (tc_millis seconds)

/-- `_format_time_vtt`: VTT-style timecode `HH:MM:SS.mmm`. -/
def _format_time_vtt (seconds : ℚ) : String :=
  padInt 2 (tc_hours seconds) ++ ":" ++ padInt 2 (tc_minutes seconds) ++ ":" ++
    padInt 2 (tc_secs seconds) ++ "." ++ padInt 3 (tc_millis seconds)

/-! ## Transcript formatter (`_format_srt`, `_format_vtt`, `_format_txt`) -/

/-- `_format_srt`: for each segment an indexed block
`f"{i}\n{start} --> {end}\n{text}\n"` (1-based `i`), blocks joined by `"\n"`. -/
def _format_srt (segments : List Segment) : String :=
  String.intercalate "\n" <| segments.enum.map fun p =>
    Nat.repr (p.1 + 1) ++ "\n" ++ _format_time p.2.start ++ " --> " ++
      _format_time p.2.«end» ++ "\n" ++ pyStrip p.2.text ++ "\n"

/-- `_format_vtt`: a `"WEBVTT\n"` header entry followed by per-segment blocks,
joined by `"\n"`. -/
def _format_vtt (segments : List Segment) : String :=
  String.intercalate "\n" <| "WEBVTT\n" :: segments.map fun seg =>
    _format_time_vtt seg.start ++ " --> " ++ _format_time_vtt seg.«end» ++ "\n" ++
      pyStrip seg.text ++ "\n"

/-- `_format_txt`: one `[timestamp] text` line per segment, joined by `"\n"`. -/
def _format_txt (segments : List Segment) : String :=
  String.intercalate "\n" <| segments.map fun seg =>
    "[" ++ _format_time seg.start ++ "] " ++ pyStrip seg.text

/-- `save_subtitle_file`, restricted to its pure content computation: the
dispatch on `format_type` runs before any file is opened, so an unsupported
format raises `ValueError` (modelled as `Except.error` carrying the message)
and nothing is written. -/
def save_subtitle_file (transcription : Transcription) (format_type : String) :
    Except String String :=
  if format_type = "srt" then Except.ok (_format_srt transcription.segments)
  else if format_type = "vtt" then Except.ok (_format_vtt transcription.segments)
  else if format_type = "txt" then Except.ok (_format_txt transcription.segments)
  else Except.error ("不支持的格式类型: " ++ format_type)

/-! ## Transcript statistics (`get_transcription_stats`) -/

/-- Result shape of `get_transcription_stats`. -/
structure TranscriptionStats where
  total_segments : Nat
  total_text_length : Nat
  average_confidence : ℚ
  duration : ℚ

/-- `get_transcription_stats`: the mean-confidence division is guarded by the
Python conditional expression `... if segments else 0`. -/
def get_transcription_stats (t : Transcription) : TranscriptionStats where
  total_segments := t.segments.length
  total_text_length := t.full_text.length
  average_confidence :=
    if t.segments.isEmpty then 0
    else (t.segments.map Segment.confidence).sum / (t.segments.length : ℚ)
  duration := t.duration

/-! ## Note-content extractor (`note_generator.py`)

`_extract_sections` splits on newlines and keeps stripped lines starting with
`#`.  `_extract_keywords` is `re.findall` for the pattern with a non-greedy
group between two literal `**` markers, de-duplicated through a set.
`_extract_map_suggestions` is `re.findall` for a `[title] - "query"` pattern
with two non-greedy groups.  The regex wildcard `.` does not match newlines. -/

/-- `_extract_sections`: for each line of `content.split('\n')`, if the
stripped line starts with `'#'`, append the stripped line. -/
def _extract_sections (content : String) : List String :=
  ((pySplit '\n' content.data).filter
    (fun line => ['#'].isPrefixOf (stripChars line))).map
    (fun line => String.mk (stripChars line))

/-- Non-greedy scan `(.*?)pat`: find the earliest occurrence of the literal
`pat` reachable through wildcard-matched characters (`.` excludes newlines).
Returns the capture before the occurrence and the remainder after it. -/
def findSub (pat : List Char) : List Char → Option (List Char × List Char)
  | [] => none
  | c :: cs =>
    if pat.isPrefixOf (c :: cs) then some ([], (c :: cs).drop pat.length)
    else if c = '\n' then none
    else (findSub pat cs).map fun p => (c :: p.1, p.2)

/-- One scanning pass of `re.findall(r'\*\*(.*?)\*\*', ...)`: at each position
try to match a literal `**`, a non-greedy capture, and a closing `**`; on
success continue after the match, on failure advance one character.  The fuel
argument only enables structural recursion; `pyFindBold` supplies enough fuel
(one unit per character) for it never to run out, since every step consumes at
least one character. -/
def pyFindBoldAux : List Char → Nat → List (List Char)
  | [], _ => []
  | _ :: _, 0 => []
  | '*' :: '*' :: cs, fuel + 1 =>
    (match findSub ['*', '*'] cs with
    | some (cap, rem) => cap :: pyFindBoldAux rem fuel
    | none => pyFindBoldAux ('*' :: cs) fuel)
  | _ :: cs, fuel + 1 => pyFindBoldAux cs fuel

/-- `re.findall(r'\*\*(.*?)\*\*', content)` over a character list. -/
def pyFindBold (cs : List Char) : List (List Char) :=
  pyFindBoldAux cs cs.length

/-- `_extract_keywords`: bold captures fed through `list(set(...))`.  Python
set iteration order is unspecified; the model uses first-occurrence
de-duplication, and the claims address only the set of elements and the
absence of duplicates. -/
def _extract_keywords (content : String) : List String :=
  ((pyFindBold content.data).map String.mk).dedup

/-- The literal `] - "` between the two capture groups of the map-suggestion
pattern `\[(.*?)\] - "(.*?)"`. -/
def delimChars : List Char := [']', ' ', '-', ' ', '"']

/-- The match attempted after a literal `[`: the non-greedy title capture up
to the literal `] - "`, then the non-greedy query capture up to the closing
`"`.  A failed query search cannot be rescued by backtracking into a longer
title capture: any later `] - "` delimiter before the next newline would
contain precisely the `"` character the failed query search could not find
(`findSub_delim_none_of_quote_none` below), so the whole attempt fails. -/
def matchAfterBracket (cs : List Char) : Option ((List Char × List Char) × List Char) :=
  (findSub delimChars cs).bind fun tr =>
    (findSub ['"'] tr.2).map fun qr => ((tr.1, qr.1), qr.2)

/-- One scanning pass of `re.findall(r'\[(.*?)\] - "(.*?)"', ...)`: attempt a
match at each `[`, continue after a successful match, advance one character
otherwise.  Fuel as in `pyFindBoldAux`. -/
def pyFindMapsAux : List Char → Nat → List (List Char × List Char)
  | [], _ => []
  | _ :: _, 0 => []
  | c :: cs, fuel + 1 =>
    if c = '[' then
      match matchAfterBracket cs with
      | some (p, rem) => p :: pyFindMapsAux rem fuel
      | none => pyFindMapsAux cs fuel
    else pyFindMapsAux cs fuel

/-- `re.findall(r'\[(.*?)\] - "(.*?)"', content)` over a character list. -/
def pyFindMaps (cs : List Char) : List (List Char × List Char) :=
  pyFindMapsAux cs cs.length

/-- `_extract_map_suggestions`: every captured pair rendered as
`f"{title}: {keyword}"`. -/
def _extract_map_suggestions (content : String) : List String :=
  (pyFindMaps content.data).map fun p => String.mk p.1 ++ ": " ++ String.mk p.2

/-- A text made of consecutive map-suggestion occurrences: each item is
`(filler, title, query)`, laid out as the filler text followed by
`[title] - "query"`. -/
def renderBlocks : List (List Char × List Char × List Char) → List Char
  | [] => []
  | (f, t, q) :: rest =>
    f ++ ('[' :: (t ++ (delimChars ++ (q ++ ('"' :: renderBlocks rest)))))

/-! ## Generation failure path (`_call_gpt_for_notes`, `process_video_to_notes`) -/

/-- Python exception values distinguished by the generation failure analysis. -/
inductive PyError where
  | apiError (msg : String)
  | unboundLocalError (name : String)
deriving DecidableEq

/-- `_call_gpt_for_notes`, parameterized by the outcome of the external
`client.chat.completions.create(...)` call.  On success the response content
is returned.  On failure the `except` block prints a message and then
evaluates `response.choices[0].message.content`, but the local variable
`response` was never assigned (the `create` call raised), so an
`UnboundLocalError` for `response` propagates in place of the original
exception. -/
def _call_gpt_for_notes (createResult : Except PyError String) : Except PyError String :=
  match createResult with
  | Except.ok content => Except.ok content
  | Except.error _ => Except.error (PyError.unboundLocalError "response")

/-- `str(e)` for the modelled exceptions. -/
def pyErrorMessage : PyError → String
  | PyError.apiError msg => msg
  | PyError.unboundLocalError name =>
      "cannot access local variable " ++ name ++ " where it is not associated with a value"

/-- The outcome dictionary of `process_video_to_notes`, restricted to the
fields the failure path produces. -/
structure RunOutcome where
  success : Bool
  error : Option String
deriving DecidableEq

/-- Top level `process_video_to_notes`: the intermediate stages catch, log and
re-raise, and the top level catches every exception from the generation stage
and reports a structured failure outcome (`success` flag plus `str(e)`). -/
def process_video_to_notes (generation : Except PyError String) : RunOutcome :=
  match generation with
  | Except.ok _ => { success := true, error := none }
  | Except.error e => { success := false, error := some (pyErrorMessage e) }

/-! ## Lemmas about the regex scanners -/

lemma findSub_length {pat cs t rem : List Char}
    (h : findSub pat cs = some (t, rem)) :
    t.length + pat.length + rem.length = cs.length := by
  induction cs generalizing t rem with
  | nil => simp [findSub] at h
  | cons c cs ih =>
    rw [findSub] at h
    split at h
    · next hpre =>
      simp only [Option.some.injEq, Prod.mk.injEq] at h
      obtain ⟨h1, h2⟩ := h
      have hle : pat.length ≤ (c :: cs).length :=
        (List.isPrefixOf_iff_prefix.mp hpre).length_le
      subst h1
      subst h2
      simp only [List.length_nil, List.length_drop]
      omega
    · split at h
      · exact absurd h (by simp)
      · obtain ⟨⟨tl, rm⟩, hfs, heq⟩ := Option.map_eq_some'.mp h
        simp only [Prod.mk.injEq] at heq
        obtain ⟨h1, h2⟩ := heq
        have hlen := ih hfs
        subst h1
        subst h2
        simp only [List.length_cons]
        omega

lemma findSub_no_newline {pat cs t rem : List Char}
    (h : findSub pat cs = some (t, rem)) : '\n' ∉ t := by
  induction cs generalizing t rem with
  | nil => simp [findSub] at h
  | cons c cs ih =>
    rw [findSub] at h
    split at h
    · simp only [Option.some.injEq, Prod.mk.injEq] at h
      obtain ⟨h1, _⟩ := h
      subst h1
      simp
    · split at h
      · exact absurd h (by simp)
      · next hc =>
        obtain ⟨⟨tl, rm⟩, hfs, heq⟩ := Option.map_eq_some'.mp h
        simp only [Prod.mk.injEq] at heq
        obtain ⟨h1, _⟩ := heq
        subst h1
        intro hmem
        rcases List.mem_cons.mp hmem with heq | hmem2
        · exact hc heq.symm
        · exact ih hfs hmem2

lemma not_isPrefixOf_cons_of_ne {p c : Char} (ps : List Char) (hc : c ≠ p)
    (cs : List Char) : ¬ ((p :: ps).isPrefixOf (c :: cs) = true) := by
  intro hpre
  obtain ⟨suffix, hs⟩ := List.isPrefixOf_iff_prefix.mp hpre
  simp only [List.cons_append, List.cons.injEq] at hs
  exact hc hs.1.symm

lemma findSub_quote_exact {q rest : List Char}
    (hq : ∀ c ∈ q, c ≠ '\n' ∧ c ≠ '"') :
    findSub ['"'] (q ++ ('"' :: rest)) = some (q, rest) := by
  induction q with
  | nil =>
    show findSub ['"'] ('"' :: rest) = some ([], rest)
    rw [findSub, if_pos (show (['"'].isPrefixOf ('"' :: rest)) = true from
      List.isPrefixOf_iff_prefix.mpr ⟨rest, rfl⟩)]
    rfl
  | cons c q ih =>
    obtain ⟨hnl, hquo⟩ := hq c (List.mem_cons_self c q)
    rw [List.cons_append, findSub,
      if_neg (show ¬ ((['"'].isPrefixOf (c :: (q ++ ('"' :: rest)))) = true) from
        not_isPrefixOf_cons_of_ne [] hquo _),
      if_neg hnl,
      ih (fun x hx => hq x (List.mem_cons_of_mem c hx))]
    rfl

lemma findSub_delim_exact {t rest : List Char}
    (ht : ∀ c ∈ t, c ≠ '\n' ∧ c ≠ ']') :
    findSub delimChars (t ++ (delimChars ++ rest)) = some (t, rest) := by
  induction t with
  | nil =>
    show findSub delimChars (']' :: ' ' :: '-' :: ' ' :: '"' :: rest) = some ([], rest)
    rw [findSub, if_pos (show
      (delimChars.isPrefixOf (']' :: ' ' :: '-' :: ' ' :: '"' :: rest)) = true from
      List.isPrefixOf_iff_prefix.mpr ⟨rest, rfl⟩)]
    rfl
  | cons c t ih =>
    obtain ⟨hnl, hrb⟩ := ht c (List.mem_cons_self c t)
    rw [List.cons_append, findSub,
      if_neg (show ¬ ((delimChars.isPrefixOf (c :: (t ++ (delimChars ++ rest)))) = true) from
        not_isPrefixOf_cons_of_ne [' ', '-', ' ', '"'] hrb _),
      if_neg hnl,
      ih (fun x hx => ht x (List.mem_cons_of_mem c hx))]
    rfl

/-- A failed quote search means no `"` occurs before the next newline, so the
delimiter `] - "` (which ends in `"`) cannot occur there either: regex
backtracking into a longer title capture can never rescue a failed match. -/
lemma findSub_delim_none_of_quote_none {cs : List Char}
    (h : findSub ['"'] cs = none) : findSub delimChars cs = none := by
  induction cs with
  | nil => rfl
  | cons c cs ih =>
    rw [findSub] at h
    by_cases hq : (['"'].isPrefixOf (c :: cs)) = true
    · rw [if_pos hq] at h
      exact absurd h (by simp)
    · rw [if_neg hq] at h
      by_cases hnl : c = '\n'
      · subst hnl
        rw [findSub, if_neg (show ¬ ((delimChars.isPrefixOf ('\n' :: cs)) = true) from
          not_isPrefixOf_cons_of_ne [' ', '-', ' ', '"'] (by decide) _), if_pos rfl]
      · rw [if_neg hnl] at h
        have hrest : findSub ['"'] cs = none := Option.map_eq_none'.mp h
        by_cases hpre : (delimChars.isPrefixOf (c :: cs)) = true
        · exfalso
          obtain ⟨suffix, hs⟩ := List.isPrefixOf_iff_prefix.mp hpre
          simp only [delimChars, List.cons_append, List.nil_append, List.cons.injEq] at hs
          obtain ⟨-, hcs⟩ := hs
          subst hcs
          have heval : findSub ['"'] (' ' :: '-' :: ' ' :: '"' :: suffix) =
              some ([' ', '-', ' '], suffix) :=
            @findSub_quote_exact [' ', '-', ' '] suffix (by decide)
          rw [heval] at hrest
          exact absurd hrest (by simp)
        · rw [findSub, if_neg hpre, if_neg hnl, Option.map_eq_none']
          exact ih hrest

lemma matchAfterBracket_length {cs rem : List Char} {p : List Char × List Char}
    (h : matchAfterBracket cs = some (p, rem)) : rem.length < cs.length := by
  rw [matchAfterBracket] at h
  rcases h1 : findSub delimChars cs with _ | ⟨t, rem1⟩
  · rw [h1] at h
    exact absurd h (by simp)
  · rw [h1] at h
    simp only [Option.some_bind] at h
    rcases h2 : findSub ['"'] rem1 with _ | ⟨q, rem2⟩
    · rw [h2] at h
      exact absurd h (by simp)
    · rw [h2] at h
      simp only [Option.map_some', Option.some.injEq, Prod.mk.injEq] at h
      obtain ⟨-, hrem⟩ := h
      subst hrem
      have l1 := findSub_length h1
      have l2 := findSub_length h2
      simp only [delimChars, List.length_cons, List.length_nil] at l1 l2
      omega

lemma matchAfterBracket_no_newline {cs rem : List Char} {p : List Char × List Char}
    (h : matchAfterBracket cs = some (p, rem)) : '\n' ∉ p.1 ∧ '\n' ∉ p.2 := by
  rw [matchAfterBracket] at h
  rcases h1 : findSub delimChars cs with _ | ⟨t, rem1⟩
  · rw [h1] at h
    exact absurd h (by simp)
  · rw [h1] at h
    simp only [Option.some_bind] at h
    rcases h2 : findSub ['"'] rem1 with _ | ⟨q, rem2⟩
    · rw [h2] at h
      exact absurd h (by simp)
    · rw [h2] at h
      simp only [Option.map_some', Option.some.injEq, Prod.mk.injEq] at h
      obtain ⟨hp, -⟩ := h
      rw [← hp]
      exact ⟨findSub_no_newline h1, findSub_no_newline h2⟩

lemma matchAfterBracket_exact {t q rest : List Char}
    (ht : ∀ c ∈ t, c ≠ '\n' ∧ c ≠ ']') (hq : ∀ c ∈ q, c ≠ '\n' ∧ c ≠ '"') :
    matchAfterBracket (t ++ (delimChars ++ (q ++ ('"' :: rest)))) = some ((t, q), rest) := by
  rw [matchAfterBracket, findSub_delim_exact ht]
  simp only [Option.some_bind]
  rw [findSub_quote_exact hq]
  rfl

lemma pyFindMapsAux_fuel : ∀ (fuel1 fuel2 : Nat) (cs : List Char),
    cs.length ≤ fuel1 → cs.length ≤ fuel2 →
    pyFindMapsAux cs fuel1 = pyFindMapsAux cs fuel2 := by
  intro fuel1
  induction fuel1 with
  | zero =>
    intro fuel2 cs h1 _
    have hnil : cs = [] := List.length_eq_zero.mp (Nat.le_zero.mp h1)
    subst hnil
    cases fuel2 <;> rfl
  | succ fuel ih =>
    intro fuel2 cs h1 h2
    cases cs with
    | nil => cases fuel2 <;> rfl
    | cons c cs =>
      cases fuel2 with
      | zero =>
        simp only [List.length_cons] at h2
        omega
      | succ fuel2 =>
        simp only [List.length_cons] at h1 h2
        simp only [pyFindMapsAux]
        by_cases hc : c = '['
        · rw [if_pos hc, if_pos hc]
          rcases hmb : matchAfterBracket cs with _ | ⟨p, rem⟩
          · simp only [hmb]
            exact ih fuel2 cs (by omega) (by omega)
          · have hlt := matchAfterBracket_length hmb
            simp only [hmb]
            rw [ih fuel2 rem (by omega) (by omega)]
        · rw [if_neg hc, if_neg hc]
          exact ih fuel2 cs (by omega) (by omega)

lemma pyFindMaps_cons_of_ne {c : Char} (cs : List Char) (hc : c ≠ '[') :
    pyFindMaps (c :: cs) = pyFindMaps cs := by
  rw [pyFindMaps, pyFindMaps, List.length_cons]
  simp only [pyFindMapsAux]
  rw [if_neg hc]

lemma pyFindMaps_cons_bracket_some {cs rem : List Char} {p : List Char × List Char}
    (h : matchAfterBracket cs = some (p, rem)) :
    pyFindMaps ('[' :: cs) = p :: pyFindMaps rem := by
  have hlt := matchAfterBracket_length h
  rw [pyFindMaps, pyFindMaps, List.length_cons]
  simp only [pyFindMapsAux, if_true]
  simp only [h]
  rw [pyFindMapsAux_fuel cs.length rem.length rem (by omega) (le_refl _)]

lemma pyFindMaps_skip {f rest : List Char} (hf : ∀ c ∈ f, c ≠ '[') :
    pyFindMaps (f ++ rest) = pyFindMaps rest := by
  induction f with
  | nil => rfl
  | cons c f ih =>
    rw [List.cons_append, pyFindMaps_cons_of_ne _ (hf c (List.mem_cons_self c f))]
    exact ih (fun x hx => hf x (List.mem_cons_of_mem c hx))

lemma pyFindMaps_renderBlocks :
    ∀ (items : List (List Char × List Char × List Char)),
    (∀ i ∈ items, ∀ c ∈ i.1, c ≠ '[') →
    (∀ i ∈ items, ∀ c ∈ i.2.1, c ≠ '\n' ∧ c ≠ ']') →
    (∀ i ∈ items, ∀ c ∈ i.2.2, c ≠ '\n' ∧ c ≠ '"') →
    pyFindMaps (renderBlocks items) = items.map (fun i => (i.2.1, i.2.2))
  | [], _, _, _ => rfl
  | (f, t, q) :: items, hf, ht, hq => by
    rw [renderBlocks, pyFindMaps_skip (hf _ (List.mem_cons_self _ _)),
      pyFindMaps_cons_bracket_some
        (matchAfterBracket_exact (ht _ (List.mem_cons_self _ _))
          (hq _ (List.mem_cons_self _ _))),
      pyFindMaps_renderBlocks items
        (fun i hi => hf i (List.mem_cons_of_mem _ hi))
        (fun i hi => ht i (List.mem_cons_of_mem _ hi))
        (fun i hi => hq i (List.mem_cons_of_mem _ hi))]
    rfl

lemma pyFindMapsAux_no_newline : ∀ (fuel : Nat) (cs : List Char)
    (p : List Char × List Char), p ∈ pyFindMapsAux cs fuel →
    '\n' ∉ p.1 ∧ '\n' ∉ p.2 := by
  intro fuel
  induction fuel with
  | zero =>
    intro cs p hp
    cases cs <;> simp [pyFindMapsAux] at hp
  | succ fuel ih =>
    intro cs p hp
    cases cs with
    | nil => simp [pyFindMapsAux] at hp
    | cons c cs =>
      simp only [pyFindMapsAux] at hp
      by_cases hc : c = '['
      · rw [if_pos hc] at hp
        rcases hmb : matchAfterBracket cs with _ | ⟨p1, rem⟩
        · simp only [hmb] at hp
          exact ih cs p hp
        · simp only [hmb] at hp
          rcases List.mem_cons.mp hp with hpe | hp2
          · subst hpe
            exact matchAfterBracket_no_newline hmb
          · exact ih rem p hp2
      · rw [if_neg hc] at hp
        exact ih cs p hp

/-! ## Evaluation helpers for the timecode formatter -/

/-- `Rat.floor` agrees with the `FloorRing` floor on `ℚ` (definitionally). -/
lemma rat_floor_eq_intFloor (q : ℚ) : q.floor = ⌊q⌋ := rfl

lemma tc_hours_zero : tc_hours 0 = 0 := by
  norm_num [tc_hours, pyInt, pyFloorDiv, rat_floor_eq_intFloor]

lemma tc_minutes_zero : tc_minutes 0 = 0 := by
  norm_num [tc_minutes, pyInt, pyFloorDiv, pyMod, rat_floor_eq_intFloor]

lemma tc_secs_zero : tc_secs 0 = 0 := by
  norm_num [tc_secs, pyInt, pyFloorDiv, pyMod, rat_floor_eq_intFloor]

lemma tc_millis_zero : tc_millis 0 = 0 := by
  norm_num [tc_millis, pyInt, pyFloorDiv, pyMod, rat_floor_eq_intFloor]

lemma tc_hours_one : tc_hours 1 = 0 := by
  norm_num [tc_hours, pyInt, pyFloorDiv, rat_floor_eq_intFloor]

lemma tc_minutes_one : tc_minutes 1 = 0 := by
  norm_num [tc_minutes, pyInt, pyFloorDiv, pyMod, rat_floor_eq_intFloor]

lemma tc_secs_one : tc_secs 1 = 1 := by
  norm_num [tc_secs, pyInt, pyFloorDiv, pyMod, rat_floor_eq_intFloor]

lemma tc_millis_one : tc_millis 1 = 0 := by
  norm_num [tc_millis, pyInt, pyFloorDiv, pyMod, rat_floor_eq_intFloor]

lemma format_time_zero : _format_time 0 = "00:00:00,000" := by
  rw [_format_time, tc_hours_zero, tc_minutes_zero, tc_secs_zero, tc_millis_zero]; rfl

lemma format_time_one : _format_time 1 = "00:00:01,000" := by
  rw [_format_time, tc_hours_one, tc_minutes_one, tc_secs_one, tc_millis_one]; rfl

/-- The millisecond field is the floor of `(s % 1) * 1000`, hence nonnegative. -/
lemma tc_millis_nonneg (s : ℚ) : 0 ≤ tc_millis s := by
  have hfloor : (⌊s / 1⌋ : ℚ) ≤ s := by
    rw [div_one]; exact Int.floor_le s
  have hmod : 0 ≤ pyMod s 1 := by
    simp only [pyMod, pyFloorDiv, rat_floor_eq_intFloor, one_mul]
    linarith
  have hprod : 0 ≤ pyMod s 1 * 1000 := by positivity
  simp only [tc_millis, pyInt, if_neg (not_lt.mpr hprod)]
  rw [rat_floor_eq_intFloor]
  exact Int.floor_nonneg.mpr hprod

/-- `(s % 1) * 1000 < 1000`, hence the millisecond field is at most 999. -/
lemma tc_millis_lt (s : ℚ) : tc_millis s < 1000 := by
  have hlt : s < ⌊s / 1⌋ + 1 := by
    rw [div_one]; exact Int.lt_floor_add_one s
  have hmod : pyMod s 1 < 1 := by
    simp only [pyMod, pyFloorDiv, rat_floor_eq_intFloor, one_mul]
    linarith
  have hfloor : (⌊s / 1⌋ : ℚ) ≤ s := by
    rw [div_one]; exact Int.floor_le s
  have hmod0 : 0 ≤ pyMod s 1 := by
    simp only [pyMod, pyFloorDiv, rat_floor_eq_intFloor, one_mul]
    linarith
  have hprod : 0 ≤ pyMod s 1 * 1000 := by positivity
  have hprodlt : pyMod s 1 * 1000 < 1000 := by nlinarith
  simp only [tc_millis, pyInt, if_neg (not_lt.mpr hprod)]
  rw [rat_floor_eq_intFloor]
  have := Int.floor_lt.mpr (by exact_mod_cast hprodlt)
  exact this

lemma padNat_length_three (n : Nat) (h : n < 1000) : (padNat 3 n).length = 3 := by
  have hlen : (Nat.repr n).length ≤ 3 := Nat.repr_length n 3 (by norm_num) (by norm_num; omega)
  simp only [padNat]
  split
  · next hcase =>
    have hrep : (String.mk (List.replicate (3 - (Nat.repr n).length) '0')).length =
        3 - (Nat.repr n).length := by
      show (List.replicate (3 - (Nat.repr n).length) '0').length = _
      simp
    simp only [String.length_append, hrep]
    omega
  · next hcase => omega

lemma padInt_length_three (n : ℤ) (h0 : 0 ≤ n) (h1 : n < 1000) : (padInt 3 n).length = 3 := by
  rw [padInt, if_neg (not_lt.mpr h0)]
  exact padNat_length_three n.toNat (by omega)

/-! ## Claims about the subtitle generator -/

/-- C1: for the single segment `{start: 0, end: 1, text: " Hello "}`, the SRT
formatter returns exactly `"1\n00:00:00,000 --> 00:00:01,000\nHello\n"`:
1-based index line, comma-delimited timecodes joined by `" --> "`, and the
whitespace-trimmed text, ending in a newline. -/
theorem srt_single_segment :
    _format_srt [⟨0, 1, " Hello ", 0⟩] = "1\n00:00:00,000 --> 00:00:01,000\nHello\n" := by
  have h : _format_srt [⟨0, 1, " Hello ", 0⟩] =
      "1" ++ "\n" ++ _format_time 0 ++ " --> " ++ _format_time 1 ++ "\n" ++ "Hello" ++ "\n" := rfl
  rw [h, format_time_zero, format_time_one]
  rfl

/-- C2: for every seconds value `s ≥ 0`, the SRT-style and VTT-style timecode
strings share the same prefix and the same three-digit millisecond suffix, and
differ only in the separator before the milliseconds: `','` for SRT, `'.'` for
VTT. -/
theorem srt_vtt_timecodes_differ_only_in_separator (s : ℚ) (h : 0 ≤ s) :
    ∃ pre post : String, post.length = 3 ∧
      _format_time s = pre ++ "," ++ post ∧ _format_time_vtt s = pre ++ "." ++ post := by
  refine ⟨padInt 2 (tc_hours s) ++ ":" ++ padInt 2 (tc_minutes s) ++ ":" ++ padInt 2 (tc_secs s),
    padInt 3 (tc_millis s), ?_, rfl, rfl⟩
  exact padInt_length_three _ (tc_millis_nonneg s) (tc_millis_lt s)

/-- Witness for C2 at `s = 0`. -/
theorem srt_vtt_timecodes_differ_only_in_separator_witness :
    (0 : ℚ) ≤ 0 ∧ ∃ pre post : String, post.length = 3 ∧
      _format_time 0 = pre ++ "," ++ post ∧ _format_time_vtt 0 = pre ++ "." ++ post :=
  ⟨le_refl 0, srt_vtt_timecodes_differ_only_in_separator 0 (le_refl 0)⟩

/-- C3: formatting the empty segment list succeeds for all three kinds: SRT and
txt formatters return the empty string, and the VTT formatter returns only the
`WEBVTT` header. -/
theorem empty_segment_list_formats :
    _format_srt [] = "" ∧ _format_vtt [] = "WEBVTT" ++ "\n" ∧ _format_txt [] = "" :=
  ⟨rfl, rfl, rfl⟩

/-- C4: requesting any format kind outside `{srt, vtt, txt}` yields the
unsupported-format error before anything is written, for every segment list. -/
theorem unsupported_format_kind_fails (t : Transcription) (k : String)
    (h1 : k ≠ "srt") (h2 : k ≠ "vtt") (h3 : k ≠ "txt") :
    save_subtitle_file t k = Except.error ("不支持的格式类型: " ++ k) := by
  simp [save_subtitle_file, h1, h2, h3]

/-- Witness for C4 at `format_type = "bogus"`. -/
theorem unsupported_format_kind_fails_witness :
    save_subtitle_file ⟨"", [], "zh", 0⟩ "bogus" = Except.error "不支持的格式类型: bogus" := by
  rw [unsupported_format_kind_fails ⟨"", [], "zh", 0⟩ "bogus"
    (by decide) (by decide) (by decide)]
  rfl

/-- C8: statistics of a transcription with zero segments: all four fields are
zero on the empty transcript, and for every transcription with no segments the
mean-confidence division is skipped (its guard returns 0 directly). -/
theorem stats_of_zero_segments :
    (∀ language : String,
      get_transcription_stats ⟨"", [], language, 0⟩ = ⟨0, 0, 0, 0⟩) ∧
    ∀ t : Transcription, t.segments = [] →
      (get_transcription_stats t).average_confidence = 0 := by
  constructor
  · intro language; rfl
  · intro t ht
    simp [get_transcription_stats, ht]

/-- Witness for C8: the empty transcript, and a no-segment transcript with
nonempty text. -/
theorem stats_of_zero_segments_witness :
    get_transcription_stats ⟨"", [], "zh", 0⟩ = ⟨0, 0, 0, 0⟩ ∧
    (get_transcription_stats ⟨"abc", [], "en", 5⟩).average_confidence = 0 :=
  ⟨stats_of_zero_segments.1 "zh", stats_of_zero_segments.2 ⟨"abc", [], "en", 5⟩ rfl⟩

/-! ## Claims about the note-content extractor and generation failure path -/

lemma filter_map_strip (ls : List (List Char)) :
    (ls.filter (fun l => ['#'].isPrefixOf (stripChars l))).map
      (fun l => String.mk (stripChars l)) =
    ((ls.map stripChars).filter (fun l => ['#'].isPrefixOf l)).map String.mk := by
  induction ls with
  | nil => rfl
  | cons l ls ih =>
    by_cases hl : (['#'].isPrefixOf (stripChars l)) = true
    · simp only [List.map_cons, List.filter_cons, hl, if_true, ih]
    · simp only [List.map_cons, List.filter_cons, hl, if_false, ih]
      simp only [Bool.false_eq_true, if_false, ih]

/-- C5 counterexample: on the input line `"  # Intro"` (leading whitespace) the
extractor returns the stripped line `"# Intro"`, not the verbatim original
line with its surrounding whitespace. -/
theorem sections_not_verbatim :
    _extract_sections "  # Intro" = ["# Intro"] ∧
    _extract_sections "  # Intro" ≠ ["  # Intro"] :=
  ⟨by decide, by decide⟩

/-- C5 (amended): the section extractor returns exactly those lines whose
first character after stripping is `#`, each captured in stripped form
(leading and trailing whitespace removed, `#` markers kept), in document
order. -/
theorem sections_are_stripped_hash_lines (content : String) :
    _extract_sections content =
      (((pySplit '\n' content.data).map stripChars).filter
        (fun l => ['#'].isPrefixOf l)).map String.mk := by
  rw [_extract_sections]
  exact filter_map_strip _

/-- C6: keyword extraction deduplicates regardless of repetition and order:
`"**x** **x** **y**"` yields exactly the set `{"x", "y"}`, and for every text
the returned keyword list contains no duplicates. -/
theorem keywords_deduplicated :
    (_extract_keywords "**x** **x** **y**").toFinset = ({"x", "y"} : Finset String) ∧
    ∀ content : String, (_extract_keywords content).Nodup :=
  ⟨by decide, fun _ => List.nodup_dedup _⟩

/-- C7: map extraction returns one `"title: query"` entry per occurrence of
`[title] - "query"`, preserving first-to-last document order and keeping
duplicates: for any sequence of occurrences (each preceded by bracket-free
filler text, with titles free of newlines and `]` and queries free of
newlines and `"`), the result is exactly the ordered list of rendered
occurrences. -/
theorem maps_preserve_order_and_duplicates
    (items : List (List Char × List Char × List Char))
    (hf : ∀ i ∈ items, ∀ c ∈ i.1, c ≠ '[')
    (ht : ∀ i ∈ items, ∀ c ∈ i.2.1, c ≠ '\n' ∧ c ≠ ']')
    (hq : ∀ i ∈ items, ∀ c ∈ i.2.2, c ≠ '\n' ∧ c ≠ '"') :
    _extract_map_suggestions (String.mk (renderBlocks items)) =
      items.map (fun i => String.mk i.2.1 ++ ": " ++ String.mk i.2.2) := by
  rw [_extract_map_suggestions,
    show (String.mk (renderBlocks items)).data = renderBlocks items from rfl,
    pyFindMaps_renderBlocks items hf ht hq, List.map_map]
  rfl

/-- Witness for C7: two identical occurrences `[T] - "q"` separated by a
space yield `["T: q", "T: q"]`, duplicates and order preserved. -/
theorem maps_preserve_order_and_duplicates_witness :
    _extract_map_suggestions (String.mk (renderBlocks
      [([], ['T'], ['q']), ([' '], ['T'], ['q'])])) = ["T: q", "T: q"] := by
  rw [maps_preserve_order_and_duplicates _ (by decide) (by decide) (by decide)]
  rfl

/-- C9 (code bug): when the external language-model call fails, the `except`
block of `_call_gpt_for_notes` re-reads the unbound local `response`, so an
`UnboundLocalError` propagates instead of the original error; the top level
still reports a structured failure outcome, but with the replaced message. -/
theorem gpt_failure_error_replaced :
    _call_gpt_for_notes (Except.error (PyError.apiError "rate limit exceeded")) =
      Except.error (PyError.unboundLocalError "response") ∧
    PyError.unboundLocalError "response" ≠ PyError.apiError "rate limit exceeded" ∧
    process_video_to_notes
        (_call_gpt_for_notes (Except.error (PyError.apiError "rate limit exceeded"))) =
      { success := false,
        error := some (pyErrorMessage (PyError.unboundLocalError "response")) } :=
  ⟨rfl, by decide, rfl⟩

/-- C10: map extraction only matches occurrences lying entirely on one line:
every extracted (title, query) pair is free of newline characters, since the
pattern wildcards do not cross newlines. -/
theorem maps_never_cross_lines (content : String) (p : List Char × List Char)
    (hp : p ∈ pyFindMaps content.data) : '\n' ∉ p.1 ∧ '\n' ∉ p.2 :=
  pyFindMapsAux_no_newline content.data.length content.data p hp

/-- Witness for C10 on the text `[T] - "q"`. -/
theorem maps_never_cross_lines_witness :
    '\n' ∉ (['T'] : List Char) ∧ '\n' ∉ (['q'] : List Char) :=
  maps_never_cross_lines "[T] - \"q\"" (['T'], ['q']) (by decide)

end VideoNotes
